import Mathlib

/-!
Verification development for the badApple toolkit
(`bad_apple/generate.py`, `analyze_frames.py`, `visualize.py`,
`convert_gif.py`, `convert_video.py`).

The Python sources are shallowly embedded:
* a frame ("PixelGrid") is a list of weeks, each a list of integer day
  values (JSON integers);
* `datetime` values are embedded as day numbers (`Int`); adding
  `timedelta(weeks=w, days=d)` is adding `7*w + d`; a calendar literal
  `YYYY-MM-DD` denotes `daysFromCivil y m d` (the standard civil → day-count
  conversion);
* side effects (prints, `subprocess.run` of `git commit`) are embedded as a
  trace of `Event` values, and a raised `ValueError` as a `some` error
  component returned alongside the trace emitted up to the raise point;
* the analyzer's Python `TypeError` (iterating `None`) is an `Except.error`.
-/

namespace BadApple

/-- One frame: a list of "weeks", each a list of integer day values. -/
abbrev Frame := List (List Int)

/-- A loaded Frame-Set JSON document: each of the keys `frames` / `weeks`
is either present (with its parsed value) or absent. -/
structure Doc where
  frames : Option (List Frame)
  weeks : Option Frame
deriving DecidableEq

/-! ### Date embedding

`datetime.strptime(s, "%Y-%m-%d")` followed by `+ timedelta(...)` is pure
day arithmetic, so dates are embedded as day counts since 1970-01-01.
`daysFromCivil` is the standard civil-calendar conversion (what a `%Y-%m-%d`
literal denotes as a day count). -/

/-- Day count since 1970-01-01 of the Gregorian date `y-m-d`
(Hinnant's `days_from_civil` algorithm, exact for `1 ≤ m ≤ 12`). -/
def daysFromCivil (y m d : Int) : Int :=
  let y2 : Int := if m ≤ 2 then y - 1 else y
  let era : Int := (if 0 ≤ y2 then y2 else y2 - 399) / 400
  let yoe : Int := y2 - era * 400
  let doy : Int := (153 * (if 2 < m then m - 3 else m + 9) + 2) / 5 + d - 1
  let doe : Int := yoe * 365 + yoe / 4 - yoe / 100 + doy
  era * 146097 + doe - 719468

/-! ### generate.py -/

/-- Observable side effects of `generate.py`, in program order.
`gitCommit` is one `subprocess.run(["git", "commit", "--allow-empty", ...])`
call; `dryRunMsg` is the `DRY-RUN: would run commit ...` print that replaces
it; `printFrame` is the `Generating frame {f_idx+1}/{len(frames)}` print.
The message `BadApple F{fIdx+1} W{wIdx+1} D{dIdx+1} {seq}/{total}` is carried
as its structured fields (0-based loop indices `fIdx`, `wIdx`, `dIdx`;
`seq = i+1`; `total = intensity`). -/
inductive Event where
  | printFrame (cur total : Nat)
  | dryRunMsg (date : Int) (seq : Nat) (total : Int) (fIdx wIdx dIdx : Nat)
  | gitCommit (date : Int) (seq : Nat) (total : Int) (fIdx wIdx dIdx : Nat)
deriving DecidableEq

/-- Is this event an actual `git commit` subprocess invocation? -/
def Event.isGit : Event → Bool
  | .gitCommit _ _ _ _ _ _ => true
  | _ => false

/-- The commit date of a `gitCommit` event, if any. -/
def Event.gitDate? : Event → Option Int
  | .gitCommit d _ _ _ _ _ => some d
  | _ => none

/-- `load_data` (generate.py:26-34), after JSON parsing: `"frames" in data`
returns `data["frames"]`; else `"weeks" in data` returns `[data["weeks"]]`;
else raises `ValueError`. -/
def load_data (doc : Doc) : Except String (List Frame) :=
  match doc.frames with
  | some fs => .ok fs
  | none =>
    match doc.weeks with
    | some w => .ok [w]
    | none => .error "JSON must contain either 'frames' or 'weeks'"

/-- `create_commit_for_date` (generate.py:42-53): `for i in range(intensity)`
either prints (dry run) or runs `git commit` with the commit date; returns
the emitted events. Python's `range` of a non-positive bound is empty, hence
`intensity.toNat`. -/
def create_commit_for_date (target_date : Int) (intensity : Int) (dry_run : Bool)
    (fIdx wIdx dIdx : Nat) : List Event :=
  (List.range intensity.toNat).map fun i =>
    if dry_run then Event.dryRunMsg target_date (i + 1) intensity fIdx wIdx dIdx
    else Event.gitCommit target_date (i + 1) intensity fIdx wIdx dIdx

/-- Inner day loop of `generate_commits` (generate.py:73-78): for each day
value (Python truthiness: commit iff the value is nonzero), the target date
is `frameBase + timedelta(weeks=wIdx, days=dIdx)`. `dIdx` is the running
`enumerate` index. -/
def commitDays (frameBase : Int) (intensity : Int) (dryRun : Bool)
    (fIdx wIdx : Nat) : Nat → List Int → List Event
  | _, [] => []
  | dIdx, v :: rest =>
    (if v ≠ 0 then
      create_commit_for_date (frameBase + 7 * wIdx + dIdx) intensity dryRun fIdx wIdx dIdx
     else []) ++ commitDays frameBase intensity dryRun fIdx wIdx (dIdx + 1) rest

/-- Week loop of `generate_commits` (generate.py:69-78): each week is
checked for length 7 when reached (`ValueError` raised at that point,
keeping the events already emitted), then its days are processed. -/
def commitWeeks (frameBase : Int) (intensity : Int) (dryRun : Bool)
    (fIdx : Nat) : Nat → List (List Int) → List Event × Option String
  | _, [] => ([], none)
  | wIdx, week :: rest =>
    if week.length ≠ 7 then ([], some "Week data must contain exactly 7 day values")
    else
      let evs := commitDays frameBase intensity dryRun fIdx wIdx 0 week
      let r := commitWeeks frameBase intensity dryRun fIdx (wIdx + 1) rest
      (evs ++ r.1, r.2)

/-- Per-frame time offset in days (generate.py:64-67):
`timedelta(days=f_idx * frame_spacing_days)` when `frame_spacing_days` is
given, else `timedelta(weeks=f_idx * frame_spacing_weeks)`. -/
def frameOffset (frame_spacing_weeks : Int) (frame_spacing_days : Option Int)
    (fIdx : Nat) : Int :=
  match frame_spacing_days with
  | some d => (fIdx : Int) * d
  | none => 7 * ((fIdx : Int) * frame_spacing_weeks)

/-- Frame loop of `generate_commits` (generate.py:59-78): each frame is
checked for length 52 when reached (before the progress print). A raise
stops the loop, keeping the events emitted so far. `total` is
`len(frames)` of the original call. -/
def generateGo (total : Nat) (start_date : Int) (intensity : Int)
    (frame_spacing_weeks : Int) (dry_run : Bool) (frame_spacing_days : Option Int) :
    Nat → List Frame → List Event × Option String
  | _, [] => ([], none)
  | fIdx, weeks :: rest =>
    if weeks.length ≠ 52 then ([], some "Each frame must contain 52 weeks of 7-day arrays")
    else
      let r := commitWeeks
        (start_date + frameOffset frame_spacing_weeks frame_spacing_days fIdx)
        intensity dry_run fIdx 0 weeks
      match r.2 with
      | some e => (Event.printFrame (fIdx + 1) total :: r.1, some e)
      | none =>
        let r2 := generateGo total start_date intensity frame_spacing_weeks dry_run
          frame_spacing_days (fIdx + 1) rest
        (Event.printFrame (fIdx + 1) total :: (r.1 ++ r2.1), r2.2)

/-- `generate_commits` (generate.py:56-78): returns the event trace emitted
(in order) and `some errorMessage` when a `ValueError` aborted the run. -/
def generate_commits (frames : List Frame) (start_date : Int) (intensity : Int)
    (frame_spacing_weeks : Int) (dry_run : Bool) (frame_spacing_days : Option Int) :
    List Event × Option String :=
  generateGo frames.length start_date intensity frame_spacing_weeks dry_run
    frame_spacing_days 0 frames

/-- One `min_date` / `max_date` update of `compute_date_range`
(generate.py:95-98). -/
def updateRange (acc : Option Int × Option Int) (d : Int) : Option Int × Option Int :=
  let mn := match acc.1 with
    | none => some d
    | some m => if d < m then some d else some m
  let mx := match acc.2 with
    | none => some d
    | some m => if m < d then some d else some m
  (mn, mx)

/-- Day loop of `compute_date_range` (generate.py:92-98): truthy day values
contribute their target date; no shape validation. -/
def rangeDays (frameBase : Int) (wIdx : Nat) :
    Nat → List Int → Option Int × Option Int → Option Int × Option Int
  | _, [], acc => acc
  | dIdx, v :: rest, acc =>
    rangeDays frameBase wIdx (dIdx + 1) rest
      (if v ≠ 0 then updateRange acc (frameBase + 7 * wIdx + dIdx) else acc)

/-- Week loop of `compute_date_range` (generate.py:91-98). -/
def rangeWeeks (frameBase : Int) :
    Nat → List (List Int) → Option Int × Option Int → Option Int × Option Int
  | _, [], acc => acc
  | wIdx, week :: rest, acc =>
    rangeWeeks frameBase (wIdx + 1) rest (rangeDays frameBase wIdx 0 week acc)

/-- Frame loop of `compute_date_range` (generate.py:85-98). -/
def rangeFrames (base : Int) (frame_spacing_weeks : Int) (frame_spacing_days : Option Int) :
    Nat → List Frame → Option Int × Option Int → Option Int × Option Int
  | _, [], acc => acc
  | fIdx, weeks :: rest, acc =>
    rangeFrames base frame_spacing_weeks frame_spacing_days (fIdx + 1) rest
      (rangeWeeks (base + frameOffset frame_spacing_weeks frame_spacing_days fIdx) 0 weeks acc)

/-- `compute_date_range` (generate.py:81-99): `(min_date, max_date)` over
all truthy pixels, `(none, none)` when there are none. -/
def compute_date_range (frames : List Frame) (base : Int)
    (frame_spacing_weeks : Int) (frame_spacing_days : Option Int) :
    Option Int × Option Int :=
  rangeFrames base frame_spacing_weeks frame_spacing_days 0 frames (none, none)

/-! ### analyze_frames.py and visualize.py frame selection

Both scripts select frames with
`frames = data.get("frames") or [data.get("weeks")]` (analyze_frames.py:8,
visualize.py:40). Python `or` keeps the left operand only when it is
*truthy*: a missing key gives `None` (falsy) and a present-but-empty list is
also falsy, so both fall back to the one-element list `[data.get("weeks")]`
whose element may be `None`. Hence a list of `Option Frame`. -/

/-- `data.get("frames") or [data.get("weeks")]`. -/
def framesOrWeeks (doc : Doc) : List (Option Frame) :=
  match doc.frames with
  | some fs => if fs.isEmpty then [doc.weeks] else fs.map some
  | none => [doc.weeks]

/-! ### analyze_frames.py -/

/-- Result record of `analyze` (analyze_frames.py:17-23). The Python float
average is embedded as the exact rational it computes. -/
structure Stats where
  n_frames : Nat
  min : Int
  max : Int
  avg : Rat
  total_pixels : Int
deriving DecidableEq

/-- Painted-pixel count of one frame: `sum(sum(week) for week in frame)`
(analyze_frames.py:11). -/
def frameCount (f : Frame) : Int :=
  (f.map (fun w => w.sum)).sum

/-- The totals loop of `analyze` (analyze_frames.py:10-12): iterating a
`None` element raises `TypeError` (Python: `'NoneType' object is not
iterable`). -/
def frameTotals : List (Option Frame) → Except String (List Int)
  | [] => .ok []
  | none :: _ => .error "TypeError: 'NoneType' object is not iterable"
  | some f :: rest => do
    let ts ← frameTotals rest
    pure (frameCount f :: ts)

/-- Python `min` over a nonempty list, with the script's `if all_counts
else 0` guard folded in (analyze_frames.py:19). -/
def pyMin : List Int → Int
  | [] => 0
  | x :: xs => xs.foldl min x

/-- Python `max` over a nonempty list, with the script's `if all_counts
else 0` guard folded in (analyze_frames.py:20). -/
def pyMax : List Int → Int
  | [] => 0
  | x :: xs => xs.foldl max x

/-- `analyze` (analyze_frames.py:7-23). -/
def analyze (doc : Doc) : Except String Stats :=
  let frames := framesOrWeeks doc
  match frameTotals frames with
  | .error e => .error e
  | .ok totals =>
    let n := frames.length
    .ok
      { n_frames := n
        min := pyMin totals
        max := pyMax totals
        avg := if n ≠ 0 then (totals.sum : Rat) / (n : Rat) else 0
        total_pixels := totals.sum }

/-! ### visualize.py -/

/-- `render_frame` (visualize.py:7-14), with each output row kept as its
list of characters (`rows[d] += "#" if v else " "` appends one character).
One week's pass over the 7 rows: `rows[d] += ...` raises `IndexError` when
the `enumerate` index `d` is out of range (a week longer than 7 entries),
embedded as `none`. -/
def addWeek (rows : List (List Char)) (week : List Int) : Option (List (List Char)) :=
  go 0 week rows
where
  go : Nat → List Int → List (List Char) → Option (List (List Char))
  | _, [], rs => some rs
  | d, v :: rest, rs =>
    if d < rs.length then
      go (d + 1) rest (rs.set d (rs.getD d [] ++ [if v ≠ 0 then '#' else ' ']))
    else none

/-- `render_frame` body: start from 7 empty rows and fold the weeks
(column order) over them; the joined string is `"\n".join(rows)`. -/
def render_frame (frame : Frame) : Option (List (List Char)) :=
  go frame (List.replicate 7 [])
where
  go : List (List Int) → List (List Char) → Option (List (List Char))
  | [], rs => some rs
  | week :: rest, rs => do
    let rs2 ← addWeek rs week
    go rest rs2

/-! ### convert_gif.py / convert_video.py Pixelizer

Only the resize / grayscale conversion is an external library call
(`PIL`); the claims speak of the *resized single-channel image*, which is
embedded as an abstract pixel accessor `px col row` (its luminance value).
-/

/-- `frame_to_52x7` (convert_gif.py:14-29): for `col in range(52)`, for
`row in range(7)`, emit `1 if im_small.getpixel((col, row)) < threshold
else 0`. -/
def frame_to_52x7 (px : Nat → Nat → Int) (threshold : Int) : Frame :=
  (List.range 52).map fun col =>
    (List.range 7).map fun row =>
      if px col row < threshold then 1 else 0

/-- `pixel_from_frame` (convert_video.py:21-34): identical 52×7
column/row traversal and thresholding (only the PIL resampling filter
differs, which is part of the abstracted resize). -/
def pixel_from_frame (px : Nat → Nat → Int) (threshold : Int) : Frame :=
  (List.range 52).map fun col =>
    (List.range 7).map fun row =>
      if px col row < threshold then 1 else 0

/-! ### Frame-Set serialization

`convert_gif.py:46-47` / `convert_video.py:87-88` write
`json.dump({"frames": frames}, f)`: a document whose `frames` key holds the
grids and which has no `weeks` key. -/

/-- Serializing a sequence of PixelGrids as a Frame-Set document. -/
def serializeFrames (fs : List Frame) : Doc :=
  { frames := some fs, weeks := none }

/-! ### Concrete grids used as test inputs -/

/-- A week with all seven day values 0. -/
def zeroWeek : List Int := [0, 0, 0, 0, 0, 0, 0]

/-- A week whose day-index-3 value is `v`, all others 0. -/
def weekWith (v : Int) : List Int := [0, 0, 0, v, 0, 0, 0]

/-- A 52-week frame whose only possibly-nonzero pixel is at week index 2,
day index 3, with value `v`. -/
def gridWith (v : Int) : Frame :=
  [zeroWeek, zeroWeek, weekWith v] ++ List.replicate 49 zeroWeek

/-- A malformed frame with 51 weeks instead of 52. -/
def bad51 : Frame := List.replicate 51 zeroWeek

/-- A week whose day-index-0 value is 1, all others 0. -/
def weekTop : List Int := [1, 0, 0, 0, 0, 0, 0]

/-- A 52-week frame whose only painted pixel is week 0, day 0. -/
def grid00 : Frame := weekTop :: List.replicate 51 zeroWeek

/-- Does some frame fail `generate_commits`'s shape checks (a frame whose
week count is not 52, or a week whose day count is not 7)? -/
def hasMalformed (frames : List Frame) : Bool :=
  frames.any fun f => f.length != 52 || f.any fun w => w.length != 7

end BadApple

namespace BadApple

/-! ## Claim theorems -/

/-- C2 (counterexample): with anchor 2023-12-31, frame spacing 1 week and a
single frame painted only at week 2 / day 3, the generated commit's target
date is NOT 2024-01-16 (it is 17 days after the anchor, i.e. 2024-01-17). -/
theorem target_date_not_jan16 :
    (generate_commits [gridWith 1] (daysFromCivil 2023 12 31) 1 1 false
        none).1.filterMap Event.gitDate? ≠ [daysFromCivil 2024 1 16] := by
  decide

/-- C2 (amended): the computed target date equals 2023-12-31 plus 2 weeks
plus 3 days, which is 2024-01-17. -/
theorem target_date_jan17 :
    (generate_commits [gridWith 1] (daysFromCivil 2023 12 31) 1 1 false
        none).1.filterMap Event.gitDate? = [daysFromCivil 2024 1 17] ∧
    daysFromCivil 2024 1 17 = daysFromCivil 2023 12 31 + 2 * 7 + 3 := by
  decide

/-- C3 (code evaluated at the failing input): on a document whose `frames`
key holds an empty sequence, `analyze` does not report zeroed statistics:
the falsy empty list makes `data.get("frames") or [data.get("weeks")]`
fall back to `[None]`, and iterating `None` raises `TypeError`. -/
theorem analyze_empty_frames_type_error :
    analyze { frames := some [], weeks := none } =
      .error "TypeError: 'NoneType' object is not iterable" :=
  rfl

/-- C7: serializing a sequence of PixelGrids under the `frames` key and
loading the resulting document returns the identical sequence. -/
theorem serialize_load_roundtrip (fs : List Frame) :
    load_data (serializeFrames fs) = .ok fs :=
  rfl

/-- C10: `create_commit_for_date` with a non-positive intensity emits no
events at all (no commit, no dry-run print) and returns normally, in both
dry-run and real mode. -/
theorem create_commit_nonpositive_intensity (target_date : Int) (intensity : Int)
    (dry_run : Bool) (fIdx wIdx dIdx : Nat) (h : intensity ≤ 0) :
    create_commit_for_date target_date intensity dry_run fIdx wIdx dIdx = [] := by
  simp [create_commit_for_date, Int.toNat_of_nonpos h]

/-- Witness for C10 at intensity `-5`. -/
theorem create_commit_nonpositive_intensity_witness :
    create_commit_for_date 0 (-5) false 0 0 0 = [] :=
  create_commit_nonpositive_intensity 0 (-5) false 0 0 0 (by decide)

/-- C5 (counterexample): for a document whose `frames` key is present with
value `[]` and whose `weeks` key holds a grid, the Analyzer/Visualizer
frame selection does not return the `frames` value (the empty sequence):
the falsy `[]` loses to the `weeks` fallback. -/
theorem framesOrWeeks_empty_frames_fallback :
    framesOrWeeks { frames := some [], weeks := some (gridWith 1) } ≠ [] ∧
    framesOrWeeks { frames := some [], weeks := some (gridWith 1) } =
      [some (gridWith 1)] := by
  constructor
  · decide
  · rfl

/-- C5 (amended): the Commit Generator's `load_data` follows the claimed
semantics exactly (presence-based precedence of `frames`, wrapping of
`weeks`, data-format error when both are absent); the Analyzer and
Visualizer instead select by Python truthiness, so a present-but-empty
`frames` value falls back to `[weeks-value]`, and a document with neither
key yields `[None]`, which makes the Analyzer fail later with a
`TypeError` rather than a data-format load error. -/
theorem load_semantics_per_tool :
    (∀ fs w, load_data { frames := some fs, weeks := w } = .ok fs) ∧
    (∀ w, load_data { frames := none, weeks := some w } = .ok [w]) ∧
    (load_data { frames := none, weeks := none } =
      .error "JSON must contain either 'frames' or 'weeks'") ∧
    (∀ fs w, fs ≠ [] → framesOrWeeks { frames := some fs, weeks := w } = fs.map some) ∧
    (∀ w, framesOrWeeks { frames := some [], weeks := w } = [w]) ∧
    (∀ w, framesOrWeeks { frames := none, weeks := w } = [w]) ∧
    (analyze { frames := none, weeks := none } =
      .error "TypeError: 'NoneType' object is not iterable") := by
  refine ⟨fun fs w => rfl, fun w => rfl, rfl, ?_, fun w => rfl, fun w => rfl, rfl⟩
  intro fs w hfs
  simp [framesOrWeeks, List.isEmpty_iff, hfs]

/-- Witness for C5 (amended) at a concrete nonempty `frames` value. -/
theorem load_semantics_witness :
    framesOrWeeks { frames := some [gridWith 1], weeks := none } =
      [gridWith 1].map some :=
  load_semantics_per_tool.2.2.2.1 [gridWith 1] none (by decide)

/-! ### Helper lemmas for the dry-run and validation claims -/

/-- In dry-run mode the day loop emits no `git commit` invocation. -/
lemma commitDays_dry_filter (b i : Int) (f w : Nat) :
    ∀ (days : List Int) (dIdx : Nat),
      (commitDays b i true f w dIdx days).filter Event.isGit = [] := by
  intro days
  induction days with
  | nil => intro dIdx; simp [commitDays]
  | cons v rest ih =>
    intro dIdx
    simp only [commitDays, List.filter_append, ih]
    split
    · simp [create_commit_for_date, List.filter_map, Event.isGit, Function.comp_def]
    · simp

/-- In dry-run mode the week loop emits no `git commit` invocation. -/
lemma commitWeeks_dry_filter (b i : Int) (f : Nat) :
    ∀ (weeks : List (List Int)) (wIdx : Nat),
      ((commitWeeks b i true f wIdx weeks).1).filter Event.isGit = [] := by
  intro weeks
  induction weeks with
  | nil => intro wIdx; simp [commitWeeks]
  | cons week rest ih =>
    intro wIdx
    simp only [commitWeeks]
    split
    · simp
    · simp [List.filter_append, ih, commitDays_dry_filter]

/-- In dry-run mode the frame loop emits no `git commit` invocation. -/
lemma generateGo_dry_filter (total : Nat) (s i sw : Int) (sd : Option Int) :
    ∀ (frames : List Frame) (fIdx : Nat),
      ((generateGo total s i sw true sd fIdx frames).1).filter Event.isGit = [] := by
  intro frames
  induction frames with
  | nil => intro fIdx; simp [generateGo]
  | cons weeks rest ih =>
    intro fIdx
    simp only [generateGo]
    split
    · simp
    · split
      · simp [Event.isGit, commitWeeks_dry_filter]
      · simp [Event.isGit, List.filter_append, commitWeeks_dry_filter, ih]

/-- The week loop raises iff some week of the frame does not have exactly
7 day values (the events already emitted are kept either way). -/
lemma commitWeeks_isSome (b i : Int) (dr : Bool) (f : Nat) :
    ∀ (weeks : List (List Int)) (wIdx : Nat),
      ((commitWeeks b i dr f wIdx weeks).2).isSome =
        weeks.any fun w => w.length != 7 := by
  intro weeks
  induction weeks with
  | nil => intro wIdx; simp [commitWeeks]
  | cons week rest ih =>
    intro wIdx
    simp only [commitWeeks, List.any_cons]
    split
    · rename_i h
      simp [h]
    · rename_i h
      rw [Ne, not_not] at h
      simp [ih, h]

/-- The frame loop raises iff some frame (or some week inside one) is
malformed. -/
lemma generateGo_isSome (total : Nat) (s i sw : Int) (dr : Bool) (sd : Option Int) :
    ∀ (frames : List Frame) (fIdx : Nat),
      ((generateGo total s i sw dr sd fIdx frames).2).isSome = hasMalformed frames := by
  intro frames
  induction frames with
  | nil => intro fIdx; simp [generateGo, hasMalformed]
  | cons weeks rest ih =>
    intro fIdx
    simp only [generateGo, hasMalformed, List.any_cons]
    split
    · rename_i h
      simp [h]
    · rename_i h
      rw [Ne, not_not] at h
      split
      · rename_i e he
        have hw := commitWeeks_isSome (s + frameOffset sw sd fIdx) i dr fIdx weeks 0
        rw [he] at hw
        simp [h, ← hw]
      · rename_i he
        have hw := commitWeeks_isSome (s + frameOffset sw sd fIdx) i dr fIdx weeks 0
        rw [he] at hw
        simp [h, ← hw, ih, hasMalformed]

/-- C4: in dry-run mode, `generate_commits` never invokes the `git commit`
subprocess, for every frame sequence, intensity and spacing (its trace
contains only prints). -/
theorem dry_run_no_git_events (frames : List Frame) (start_date intensity sw : Int)
    (sd : Option Int) :
    ((generate_commits frames start_date intensity sw true sd).1).filter
      Event.isGit = [] :=
  generateGo_dry_filter frames.length start_date intensity sw sd frames 0

/-- C1 (counterexample): for the frame sequence `[gridWith 1, bad51]`
(a well-formed frame with one painted pixel followed by a 51-week frame),
the run does fail with a validation error, but a `git commit` for the
first frame has already been made before the malformed frame is reached. -/
theorem generate_commits_partial_commits_before_malformed :
    (generate_commits [gridWith 1, bad51] 0 1 1 false none).2.isSome = true ∧
    (generate_commits [gridWith 1, bad51] 0 1 1 false none).1.filter
      Event.isGit ≠ [] := by
  decide

/-- C1 (amended): a malformed frame anywhere in the sequence (wrong week
count, or a week with a wrong day count) makes the run fail with a
validation error — and conversely — but commits already emitted for frames
and weeks preceding the malformed position are kept; only when the first
included frame has a wrong week count is the run aborted before any event
(commit or print). -/
theorem generate_commits_validation_characterization :
    (∀ (frames : List Frame) (s i sw : Int) (dr : Bool) (sd : Option Int),
      ((generate_commits frames s i sw dr sd).2).isSome = hasMalformed frames) ∧
    (∀ (f : Frame) (rest : List Frame) (s i sw : Int) (dr : Bool) (sd : Option Int),
      f.length ≠ 52 → (generate_commits (f :: rest) s i sw dr sd).1 = []) := by
  constructor
  · intro frames s i sw dr sd
    exact generateGo_isSome frames.length s i sw dr sd frames 0
  · intro f rest s i sw dr sd hf
    simp [generate_commits, generateGo, hf]

/-- Witness for C1 (amended): a lone 51-week frame aborts the run with a
validation error and no event at all. -/
theorem generate_commits_validation_witness :
    (generate_commits [bad51] 0 1 1 false none).2.isSome = hasMalformed [bad51] ∧
    (generate_commits [bad51] 0 1 1 false none).1 = [] :=
  ⟨generate_commits_validation_characterization.1 [bad51] 0 1 1 false none,
   generate_commits_validation_characterization.2 bad51 [] 0 1 1 false none (by decide)⟩

/-- C6: for every resized single-channel image (pixel accessor `px`) and
every threshold, the Pixelizer's output has exactly 52 outer entries of
length 7 each, every value is 0 or 1, entry `[week][day]` is 1 exactly
when the luminance at column `week` / row `day` is strictly below the
threshold — and the video converter's `pixel_from_frame` computes the
same grid. -/
theorem pixelizer_shape_and_threshold (px : Nat → Nat → Int) (t : Int) :
    (frame_to_52x7 px t).length = 52 ∧
    (∀ w ∈ frame_to_52x7 px t, w.length = 7) ∧
    (∀ w ∈ frame_to_52x7 px t, ∀ v ∈ w, v = 0 ∨ v = 1) ∧
    (∀ c r : Nat, c < 52 → r < 7 →
      ((frame_to_52x7 px t).getD c []).getD r 0 =
        if px c r < t then 1 else 0) ∧
    pixel_from_frame px t = frame_to_52x7 px t := by
  refine ⟨by simp [frame_to_52x7], ?_, ?_, ?_, rfl⟩
  · intro w hw
    simp only [frame_to_52x7, List.mem_map, List.mem_range] at hw
    obtain ⟨c, _, rfl⟩ := hw
    simp
  · intro w hw v hv
    simp only [frame_to_52x7, List.mem_map, List.mem_range] at hw
    obtain ⟨c, _, rfl⟩ := hw
    simp only [List.mem_map, List.mem_range] at hv
    obtain ⟨r, _, rfl⟩ := hv
    split <;> simp
  · intro c r hc hr
    have hc' : c < (frame_to_52x7 px t).length := by simp [frame_to_52x7, hc]
    rw [List.getD_eq_getElem _ _ hc']
    have hr' : r < ((frame_to_52x7 px t)[c]).length := by
      simp [frame_to_52x7, hc, hr]
    rw [List.getD_eq_getElem _ _ hr']
    simp [frame_to_52x7, hc, hr]

/-- Witness for C6 at a concrete image and threshold: the entry at week 2,
day 3 of the output grid. -/
theorem pixelizer_witness :
    ((frame_to_52x7 (fun c r => (c : Int) * r) 128).getD 2 []).getD 3 0 = 1 := by
  have h := (pixelizer_shape_and_threshold (fun c r => (c : Int) * r) 128).2.2.2.1
    2 3 (by decide) (by decide)
  simpa using h

set_option maxRecDepth 4000 in
/-- Evaluation of `generate_commits` on the single-pixel grid when the
pixel value is any nonzero integer: one progress print and one commit
dated anchor + 2 weeks + 3 days. -/
lemma generate_gridWith_ne (v : Int) (hv : v ≠ 0) :
    generate_commits [gridWith v] 0 1 1 false none =
      ([Event.printFrame 1 1, Event.gitCommit 17 1 1 0 2 3], none) := by
  simp [gridWith, zeroWeek, weekWith, generate_commits, generateGo, commitWeeks,
    commitDays, create_commit_for_date, frameOffset, hv, List.replicate,
    List.range_succ]

set_option maxRecDepth 4000 in
/-- Evaluation of `compute_date_range` on the single-pixel grid when the
pixel value is any nonzero integer. -/
lemma range_gridWith_ne (v : Int) (hv : v ≠ 0) :
    compute_date_range [gridWith v] 0 1 none = (some 17, some 17) := by
  simp [gridWith, zeroWeek, weekWith, compute_date_range, rangeFrames, rangeWeeks,
    rangeDays, updateRange, frameOffset, hv, List.replicate]

set_option maxRecDepth 8000 in
/-- C9: the Commit Generator decides painted-ness by truthiness, not by
equality with 1: on the 52×7 grid whose only possibly-nonzero day value is
`v` (at week 2, day 3), no validation error is ever raised, a `git commit`
is invoked iff `v` is nonzero, and the preview date range is nonempty iff
`v` is nonzero — for every integer `v`, including values outside {0,1}. -/
theorem truthiness_painted (v : Int) :
    (generate_commits [gridWith v] 0 1 1 false none).2 = none ∧
    ((generate_commits [gridWith v] 0 1 1 false none).1.filter Event.isGit ≠ []
      ↔ v ≠ 0) ∧
    ((compute_date_range [gridWith v] 0 1 none).1 ≠ none ↔ v ≠ 0) := by
  by_cases hv : v = 0
  · subst hv
    decide
  · rw [generate_gridWith_ne v hv, range_gridWith_ne v hv]
    refine ⟨rfl, ?_, ?_⟩
    · simp only [hv, ne_eq, iff_true]
      decide
    · simp [hv]

/-- Witness for C9 at the out-of-range day value 2: it is accepted without
error and treated as painted. -/
theorem truthiness_painted_witness :
    (generate_commits [gridWith 2] 0 1 1 false none).2 = none ∧
    ((generate_commits [gridWith 2] 0 1 1 false none).1.filter Event.isGit ≠ []
      ↔ (2 : Int) ≠ 0) ∧
    ((compute_date_range [gridWith 2] 0 1 none).1 ≠ none ↔ (2 : Int) ≠ 0) :=
  truthiness_painted 2

/-! ### Helper lemmas for the Visualizer claim -/

/-- What one pass of `addWeek` computes on well-shaped input: every row
gets the week's glyph for its day appended. -/
def zipApp (rows : List (List Char)) (week : List Int) : List (List Char) :=
  List.zipWith (fun row v => row ++ [if v ≠ 0 then '#' else ' ']) rows week

/-- On a 7-value week over 7 rows, `addWeek` succeeds and appends one glyph
per row. -/
lemma addWeek_eq (rows : List (List Char)) (week : List Int)
    (hr : rows.length = 7) (hw : week.length = 7) :
    addWeek rows week = some (zipApp rows week) := by
  rcases rows with
    _ | ⟨a0, _ | ⟨a1, _ | ⟨a2, _ | ⟨a3, _ | ⟨a4, _ | ⟨a5, _ | ⟨a6, _ | ⟨a7, t⟩⟩⟩⟩⟩⟩⟩⟩ <;>
    simp at hr
  rcases week with
    _ | ⟨b0, _ | ⟨b1, _ | ⟨b2, _ | ⟨b3, _ | ⟨b4, _ | ⟨b5, _ | ⟨b6, _ | ⟨b7, u⟩⟩⟩⟩⟩⟩⟩⟩ <;>
    simp at hw
  rfl

/-- Length of `zipApp` on equal-length inputs. -/
lemma zipApp_length (rows : List (List Char)) (week : List Int)
    (h : week.length = rows.length) : (zipApp rows week).length = rows.length := by
  simp [zipApp, h]

/-- Row `r` of `zipApp` on well-shaped input. -/
lemma zipApp_getD (rows : List (List Char)) (week : List Int)
    (hr : rows.length = 7) (hw : week.length = 7) (r : Nat) (h : r < 7) :
    (zipApp rows week).getD r [] =
      rows.getD r [] ++ [if week.getD r 0 ≠ 0 then '#' else ' '] := by
  have h1 : r < (zipApp rows week).length := by simp [zipApp, hr, hw]; omega
  rw [List.getD_eq_getElem _ _ h1,
    List.getD_eq_getElem _ _ (show r < rows.length by omega),
    List.getD_eq_getElem _ _ (show r < week.length by omega)]
  simp [zipApp]

/-- The fold of `render_frame` over a frame whose weeks all have 7 values:
it succeeds, keeps 7 rows and appends to row `r` one glyph per week, in
week (column) order. -/
lemma renderGo_eq (frame : List (List Int)) :
    ∀ rows : List (List Char), (∀ w ∈ frame, w.length = 7) → rows.length = 7 →
      ∃ rows', render_frame.go frame rows = some rows' ∧ rows'.length = 7 ∧
        ∀ r : Nat, r < 7 → rows'.getD r [] =
          rows.getD r [] ++ frame.map fun w =>
            if w.getD r 0 ≠ 0 then '#' else ' ' := by
  induction frame with
  | nil =>
    intro rows _ hr
    exact ⟨rows, rfl, hr, fun r _ => by simp [render_frame.go]⟩
  | cons week rest ih =>
    intro rows hwf hr
    have hw : week.length = 7 := hwf week (List.mem_cons_self _ _)
    obtain ⟨rows', hgo, hlen, hget⟩ :=
      ih (zipApp rows week) (fun w hw' => hwf w (List.mem_cons_of_mem _ hw'))
        (by rw [zipApp_length rows week (by omega)]; exact hr)
    refine ⟨rows', ?_, hlen, ?_⟩
    · simp [render_frame.go, addWeek_eq rows week hr hw, hgo]
    · intro r h
      rw [hget r h, zipApp_getD rows week hr hw r h]
      simp

/-- C8: on every well-formed 52×7 frame with values in {0,1},
`render_frame` succeeds and produces exactly 7 rows of 52 characters each,
where the character at row `r`, column `c` is `'#'` when the frame's value
at week `c`, day `r` is 1 and `' '` otherwise. -/
theorem render_frame_well_formed (frame : Frame)
    (h52 : frame.length = 52) (h7 : ∀ w ∈ frame, w.length = 7)
    (hb : ∀ w ∈ frame, ∀ v ∈ w, v = 0 ∨ v = 1) :
    ∃ rows, render_frame frame = some rows ∧
      rows.length = 7 ∧ (∀ row ∈ rows, row.length = 52) ∧
      ∀ r c : Nat, r < 7 → c < 52 →
        (rows.getD r []).getD c ' ' =
          if (frame.getD c []).getD r 0 = 1 then '#' else ' ' := by
  obtain ⟨rows', hgo, hlen, hget⟩ := renderGo_eq frame (List.replicate 7 []) h7 (by simp)
  have hget' : ∀ r : Nat, r < 7 →
      rows'.getD r [] = frame.map fun w => if w.getD r 0 ≠ 0 then '#' else ' ' := by
    intro r h
    rw [hget r h, List.getD_eq_getElem (List.replicate 7 ([] : List Char)) []
      (by simpa using h), List.getElem_replicate]
    simp
  refine ⟨rows', hgo, hlen, ?_, ?_⟩
  · intro row hrow
    obtain ⟨i, hi, rfl⟩ := List.mem_iff_getElem.mp hrow
    have h := hget' i (hlen ▸ hi)
    rw [List.getD_eq_getElem _ _ hi] at h
    rw [h]
    simp [h52]
  · intro r c hr hc
    rw [hget' r hr]
    have hc1 : c < frame.length := by omega
    have hc' : c < (frame.map fun w => if w.getD r 0 ≠ 0 then '#' else ' ').length := by
      simpa using hc1
    rw [List.getD_eq_getElem _ _ hc', List.getD_eq_getElem frame [] hc1]
    simp only [List.getElem_map]
    have hmem : frame[c] ∈ frame := List.getElem_mem hc1
    have hr7 : r < (frame[c]).length := by rw [h7 _ hmem]; omega
    rw [List.getD_eq_getElem _ _ hr7]
    rcases hb _ hmem _ (List.getElem_mem hr7) with h0 | h1
    · rw [h0]; simp
    · rw [h1]; simp

/-- Witness for C8: the frame whose only painted pixel is week 0 / day 0
renders with a glyph in the top-left position and blanks elsewhere. -/
theorem render_frame_single_pixel_witness :
    ∃ rows, render_frame grid00 = some rows ∧
      rows.length = 7 ∧ (∀ row ∈ rows, row.length = 52) ∧
      ∀ r c : Nat, r < 7 → c < 52 →
        (rows.getD r []).getD c ' ' =
          if (grid00.getD c []).getD r 0 = 1 then '#' else ' ' :=
  render_frame_well_formed grid00 (by decide) (by decide) (by decide)

end BadApple
